/-
Verification of the acr_telemetry capture-and-export pipeline.

Shallow embedding of the parts of the repository that the checked claims
touch:

* `src/src/recorder.rs` — the chunked append-only physics log writer
  (`Recorder::new`, `Recorder::record`, `Recorder::flush`).
* `src/src/export/rkyv_reader.rs` — the chunked log reader (`read_rkyv`).
* `src/vendor/acc_shared_memory_rs/src/core/acc_shared_memory.rs` — the
  freshness gate (`read_shared_memory`, `reset`).
* `src/src/export/sqlite_export.rs` — the analytical-store exporter
  (`export_to_sqlite`, `export_graphics_to_sqlite`, `recording_exists`).
* `src/src/bin/acr_export.rs` — the CLI glue (`export_single`,
  `batch_export`, `sync_annotations_from_physics`).
* `src/src/bin/acr_analysis_export.rs` — the annotation-driven slicer
  (`read_grafana_annotations`, `run_export`).
* `src/src/notes.rs` — marker-line parsing (`parse_annotation_line`).
* `src/vendor/acc_shared_memory_rs/src/core/shared_memory.rs` — bounded
  wide-string reads (`read_utf16_string_at`).

Rust `f32`/`f64` values are modelled as rationals (`ℚ`): every float
comparison and arithmetic step the claims exercise is exact at the inputs
involved.  Machine integers are modelled as `Int`/`Nat`.  Files are lists of
byte values (`Nat`, little-endian where multi-byte).  SQLite tables are lists
of row records and a transaction is the usual all-or-nothing wrapper: the
scratch sequence of statements either all apply or the database is left as it
was.  The rkyv codec is an external library; theorems that depend on it take
its documented contract (deserialize inverts serialize, a nonempty batch has
a nonempty, `u32`-sized encoding) as explicit hypotheses.
-/
import Mathlib

namespace AcrTelemetry

/-! ## Little-endian byte encoding

`u16::to_le_bytes` / `u32::to_le_bytes` and their `from_le_bytes` inverses,
as used for the 16-byte header and the chunk length prefix
(`src/src/recorder.rs` lines 42-45, 111; `src/src/export/rkyv_reader.rs`
lines 26-40). -/

/-- `u16::to_le_bytes`: the two little-endian bytes of `n % 2^16`. -/
def toLE2 (n : Nat) : List Nat :=
  [n % 256, n / 256 % 256]

/-- `u32::to_le_bytes`: the four little-endian bytes of `n % 2^32`. -/
def toLE4 (n : Nat) : List Nat :=
  [n % 256, n / 256 % 256, n / 65536 % 256, n / 16777216 % 256]

/-- `u16::from_le_bytes` on two bytes. -/
def fromLE2 (b0 b1 : Nat) : Nat := b0 + 256 * b1

/-- `u32::from_le_bytes` on four bytes. -/
def fromLE4 (b0 b1 b2 b3 : Nat) : Nat :=
  b0 + 256 * b1 + 65536 * b2 + 16777216 * b3

theorem fromLE4_toLE4 (n : Nat) (h : n < 4294967296) :
    fromLE4 (n % 256) (n / 256 % 256) (n / 65536 % 256) (n / 16777216 % 256) = n := by
  unfold fromLE4
  omega

theorem fromLE2_toLE2 (n : Nat) (h : n < 65536) :
    fromLE2 (n % 256) (n / 256 % 256) = n := by
  unfold fromLE2
  omega

/-! ## C1 — the chunked raw log: write then read

`Recorder` (`src/src/recorder.rs`) buffers records and, whenever the buffer
reaches `BUFFER_FLUSH_SAMPLES = 333` entries, serializes the whole batch with
rkyv and writes `len.to_le_bytes() ++ bytes`; `flush` is also called once at
the end (drop / normal termination).  `read_rkyv`
(`src/src/export/rkyv_reader.rs`) checks the `ACCR` magic, reads the version
and the sample rate, skips 6 reserved bytes, then repeatedly reads a 4-byte
length prefix (stopping cleanly when fewer than 4 bytes remain or the prefix
is zero), reads that many payload bytes (failing if they are missing) and
deserializes them, concatenating the decoded batches.

The record type is a parameter `α`: the writer and reader never inspect
record contents, only the serialized bytes.  `ser`/`deser` stand for
`rkyv::to_bytes` / `rkyv::from_bytes_unchecked` on `Vec<record>`. -/

/-- `FILE_MAGIC = *b"ACCR"` (`recorder.rs` line 17). -/
def fileMagic : List Nat := [65, 67, 67, 82]

/-- `FILE_VERSION = 1` (`recorder.rs` line 19). -/
def fileVersion : Nat := 1

/-- `TARGET_HZ = 333` (`recorder.rs` line 10). -/
def targetHz : Nat := 333

/-- `BUFFER_FLUSH_SAMPLES = 333` (`recorder.rs` line 15). -/
def bufferFlushSamples : Nat := 333

/-- The 16-byte header written by `Recorder::new` (`recorder.rs` lines
42-45): magic, version (u16 LE), target hz (u32 LE), 6 reserved zero
bytes. -/
def headerBytes : List Nat :=
  fileMagic ++ toLE2 fileVersion ++ toLE4 targetHz ++ [0, 0, 0, 0, 0, 0]

/-- One flushed chunk (`Recorder::flush`, `recorder.rs` lines 101-116):
the batch is serialized, its byte length written as u32 LE, then the bytes. -/
def chunkBytes {α : Type} (ser : List α → List Nat) (batch : List α) : List Nat :=
  toLE4 (ser batch).length ++ ser batch

/-- One `Recorder::record` call (`recorder.rs` lines 75-84) acting on the
state `(bytes written so far, in-memory buffer)`: push the record, then
flush when the buffer has reached `BUFFER_FLUSH_SAMPLES`. -/
def recordStep {α : Type} (ser : List α → List Nat)
    (st : List Nat × List α) (r : α) : List Nat × List α :=
  if bufferFlushSamples ≤ (st.2 ++ [r]).length then
    (st.1 ++ chunkBytes ser (st.2 ++ [r]), [])
  else
    (st.1, st.2 ++ [r])

/-- The final `flush` (`recorder.rs` lines 101-116, reached on drop):
an empty buffer writes nothing, a nonempty one becomes a last chunk. -/
def finalFlush {α : Type} (ser : List α → List Nat) (st : List Nat × List α) : List Nat :=
  if st.2.isEmpty then st.1 else st.1 ++ chunkBytes ser st.2

/-- The full byte stream produced by `Recorder::new`, a sequence of
`record` calls and a final `flush`: header followed by the chunk stream. -/
def recorderBytes {α : Type} (ser : List α → List Nat) (records : List α) : List Nat :=
  headerBytes ++ finalFlush ser (records.foldl (recordStep ser) ([], []))

/-- The chunk-reading loop of `read_rkyv` (`rkyv_reader.rs` lines 36-53):
stop with the records so far when fewer than 4 bytes remain, read the
length prefix, stop on a zero prefix, fail when the payload is truncated,
otherwise deserialize the payload and continue on the rest. -/
def readChunks {α : Type} (deser : List Nat → Option (List α)) :
    List Nat → Option (List α)
  | b0 :: b1 :: b2 :: b3 :: rest =>
    if fromLE4 b0 b1 b2 b3 = 0 then some []
    else if rest.length < fromLE4 b0 b1 b2 b3 then none
    else
      match deser (rest.take (fromLE4 b0 b1 b2 b3)) with
      | none => none
      | some recs =>
        match readChunks deser (rest.drop (fromLE4 b0 b1 b2 b3)) with
        | none => none
        | some more => some (recs ++ more)
  | _ => some []
  termination_by bytes => bytes.length
  decreasing_by
    simp only [List.length_drop, List.length_cons]
    omega

/-- `read_rkyv` (`rkyv_reader.rs` lines 13-56): check the 4 magic bytes,
read the u16 version (discarded), the u32 sample rate, the 6 reserved
bytes, then the chunk loop.  Failure (bad magic, truncated header or
truncated chunk) is `none`. -/
def readRkyv {α : Type} (deser : List Nat → Option (List α)) (bytes : List Nat) :
    Option (Nat × List α) :=
  match bytes with
  | m0 :: m1 :: m2 :: m3 :: _v0 :: _v1 :: s0 :: s1 :: s2 :: s3 :: _r0 :: _r1 :: _r2 :: _r3 :: _r4 :: _r5 :: rest =>
    if [m0, m1, m2, m3] = fileMagic then
      match readChunks deser rest with
      | some recs => some (fromLE4 s0 s1 s2 s3, recs)
      | none => none
    else none
  | _ => none

/-- The u16 version field as `read_rkyv` decodes it (`rkyv_reader.rs`
lines 26-28; the value is bound to `_version` and dropped). -/
def readRkyvVersion (bytes : List Nat) : Option Nat :=
  match bytes with
  | _ :: _ :: _ :: _ :: b4 :: b5 :: _ => some (fromLE2 b4 b5)
  | _ => none

/-! ### C1 proof infrastructure -/

theorem foldl_recordStep_accum {α : Type} (ser : List α → List Nat)
    (rs : List α) (w : List Nat) (buf : List α) :
    rs.foldl (recordStep ser) (w, buf) =
      (w ++ (rs.foldl (recordStep ser) ([], buf)).1,
       (rs.foldl (recordStep ser) ([], buf)).2) := by
  induction rs generalizing w buf with
  | nil => simp
  | cons r rs ih =>
    simp only [List.foldl_cons, recordStep]
    by_cases h : bufferFlushSamples ≤ (buf ++ [r]).length
    · simp only [if_pos h, List.nil_append]
      rw [ih (w ++ chunkBytes ser (buf ++ [r])) [], ih (chunkBytes ser (buf ++ [r])) []]
      simp [List.append_assoc]
    · simp only [if_neg h]
      exact ih w (buf ++ [r])

theorem finalFlush_append {α : Type} (ser : List α → List Nat)
    (w p : List Nat) (q : List α) :
    finalFlush ser (w ++ p, q) = w ++ finalFlush ser (p, q) := by
  simp only [finalFlush]
  split <;> simp [List.append_assoc]

theorem readChunks_nil {α : Type} (deser : List Nat → Option (List α)) :
    readChunks deser [] = some [] := by
  rw [readChunks]
  intro b0 b1 b2 b3 rest h
  exact absurd h (by simp)

theorem readChunks_chunk {α : Type} (ser : List α → List Nat)
    (deser : List Nat → Option (List α)) (b : List α) (tail : List Nat)
    (hb : deser (ser b) = some b)
    (hpos : (ser b).length ≠ 0)
    (hsize : (ser b).length < 4294967296) :
    readChunks deser (chunkBytes ser b ++ tail) =
      (readChunks deser tail).map (fun more => b ++ more) := by
  simp only [chunkBytes, toLE4, List.cons_append, List.nil_append]
  rw [readChunks]
  rw [fromLE4_toLE4 _ hsize]
  rw [if_neg hpos]
  rw [if_neg (by simp)]
  rw [List.take_left, List.drop_left, hb]
  cases readChunks deser tail <;> simp

theorem readChunks_recorder {α : Type} (ser : List α → List Nat)
    (deser : List Nat → Option (List α))
    (hround : ∀ l, deser (ser l) = some l)
    (hpos : ∀ l : List α, l ≠ [] → (ser l).length ≠ 0)
    (hsize : ∀ l : List α, (ser l).length < 4294967296)
    (rs : List α) :
    ∀ buf : List α, buf.length < bufferFlushSamples →
      readChunks deser (finalFlush ser (rs.foldl (recordStep ser) ([], buf))) =
        some (buf ++ rs) := by
  induction rs with
  | nil =>
    intro buf _
    cases hb : buf.isEmpty
    · have hne : buf ≠ [] := by
        intro h; rw [h] at hb; simp at hb
      simp only [List.foldl_nil, finalFlush, hb, Bool.false_eq_true, if_false,
        List.nil_append]
      have := readChunks_chunk ser deser buf [] (hround buf) (hpos buf hne) (hsize buf)
      simpa [readChunks_nil] using this
    · have : buf = [] := by
        cases buf with
        | nil => rfl
        | cons a t => simp at hb
      subst this
      simp [finalFlush, readChunks]
  | cons r rs ih =>
    intro buf hbuf
    simp only [List.foldl_cons, recordStep]
    by_cases h : bufferFlushSamples ≤ (buf ++ [r]).length
    · rw [if_pos h]
      rw [foldl_recordStep_accum ser rs ([] ++ chunkBytes ser (buf ++ [r])) []]
      simp only [List.nil_append]
      rw [finalFlush_append]
      rw [readChunks_chunk ser deser (buf ++ [r]) _ (hround _) (hpos _ (by simp)) (hsize _)]
      rw [ih [] (by simp [bufferFlushSamples])]
      simp
    · rw [if_neg h]
      have hlen : (buf ++ [r]).length < bufferFlushSamples := by
        omega
      have := ih (buf ++ [r]) hlen
      simpa using this

/-- C1: appending any finite record sequence through `Recorder::record` with a
final flush and reading the produced file with `read_rkyv` is a lossless
round-trip: the reader succeeds, returns the target sample rate written in the
header (333) together with exactly the appended record sequence in order, the
header's first four bytes are the `ACCR` magic the reader checks, and the u16
version field reads back as the version 1 written by `Recorder::new`.  The
rkyv codec contract is taken as hypotheses: deserialization inverts
serialization, and a nonempty batch serializes to a nonempty byte string of
`u32`-representable length. -/
theorem c1_rawlog_write_read_roundtrip {α : Type} (ser : List α → List Nat)
    (deser : List Nat → Option (List α))
    (hround : ∀ l, deser (ser l) = some l)
    (hpos : ∀ l : List α, l ≠ [] → (ser l).length ≠ 0)
    (hsize : ∀ l : List α, (ser l).length < 4294967296)
    (records : List α) :
    readRkyv deser (recorderBytes ser records) = some (333, records) ∧
    readRkyvVersion (recorderBytes ser records) = some 1 ∧
    (recorderBytes ser records).take 4 = fileMagic := by
  have hchunks := readChunks_recorder ser deser hround hpos hsize records []
    (by simp [bufferFlushSamples])
  simp only [List.nil_append] at hchunks
  refine ⟨?_, ?_, ?_⟩
  · simp only [recorderBytes, headerBytes, fileMagic, toLE2, toLE4, fileVersion, targetHz,
      List.cons_append, List.nil_append, readRkyv]
    rw [hchunks]
    norm_num [fromLE4]
  · simp [recorderBytes, headerBytes, fileMagic, toLE2, toLE4, fileVersion, targetHz,
      readRkyvVersion, fromLE2]
  · simp [recorderBytes, headerBytes, fileMagic, toLE2, toLE4, fileVersion, targetHz]

/-- Helper codec for the C1 witness: records carry no information beyond
their count, so a batch serializes to the single "byte" holding its length. -/
def unitDeser (b : List Nat) : Option (List Unit) :=
  match b with
  | [n] => some (List.replicate n ())
  | _ => none

theorem unitDeser_round (l : List Unit) : unitDeser [l.length] = some l := by
  simp only [unitDeser]
  induction l with
  | nil => rfl
  | cons a t ih =>
    simp only [List.length_cons, List.replicate_succ]
    simp only [unitDeser, Option.some.injEq] at ih
    simp [ih]

/-- Witness for C1: the round-trip theorem applied to a concrete two-record
log with the length-only codec. -/
theorem c1_rawlog_write_read_roundtrip_witness :
    readRkyv unitDeser (recorderBytes (fun l => [l.length]) [(), ()]) =
      some (333, [(), ()]) := by
  have h := c1_rawlog_write_read_roundtrip (fun l : List Unit => [l.length]) unitDeser
    (fun l => unitDeser_round l)
    (fun l _ => by simp)
    (fun l => by simp)
    [(), ()]
  exact h.1

/-! ## C2 / C10 — the freshness gate

`ACCSharedMemory` (`src/vendor/acc_shared_memory_rs/src/core/acc_shared_memory.rs`)
stores `last_physics_id : i32` (initialized to 0) and
`last_physics : Option<PhysicsMap>` (initialized to `None`).
`read_shared_memory` decodes the physics segment, returns `None` when the
decoded `packet_id` equals the stored id, returns `None` when a stored frame
exists and `PhysicsMap::is_equal` (a comparison of the per-wheel
`suspension_travel` group, `physics_map.rs` lines 184-186) holds, and
otherwise stores the new id and frame and returns the aggregate.

`PhysicsMap` has ~150 fields; the gate inspects only `packet_id` and
`suspension_travel`, so the remaining fields are modelled by a type
parameter `ρ` carried in `rest` — full equality of modelled frames is full
equality of all source fields. -/

/-- Per-wheel value group (`datatypes/wheels.rs`), `f32` as `ℚ`. -/
structure Wheels where
  front_left : ℚ
  front_right : ℚ
  rear_left : ℚ
  rear_right : ℚ
deriving DecidableEq, Repr

/-- `PhysicsMap` (`maps/physics_map.rs`): the fields the gate reads, plus
`rest` standing for all remaining fields. -/
structure PhysicsMap (ρ : Type) where
  packet_id : Int
  suspension_travel : Wheels
  rest : ρ
deriving DecidableEq, Repr

/-- `PhysicsMap::is_equal` (`physics_map.rs` lines 184-186): equality of the
per-wheel suspension-travel group. -/
def PhysicsMap.isEqual {ρ : Type} (p other : PhysicsMap ρ) : Bool :=
  decide (p.suspension_travel = other.suspension_travel)

/-- The gate's mutable state (`acc_shared_memory.rs` lines 13-14). -/
structure GateState (ρ : Type) where
  last_physics_id : Int
  last_physics : Option (PhysicsMap ρ)
deriving DecidableEq, Repr

/-- `ACCSharedMemory::new` (`acc_shared_memory.rs` lines 33-34):
`last_physics_id = 0`, `last_physics = None`. -/
def GateState.init (ρ : Type) : GateState ρ := ⟨0, none⟩

/-- `ACCSharedMemory::reset` (`acc_shared_memory.rs` lines 115-118). -/
def gateReset {ρ : Type} (_st : GateState ρ) : GateState ρ := ⟨0, none⟩

/-- One `read_shared_memory` call (`acc_shared_memory.rs` lines 42-64) on an
already-decoded physics frame: the emitted frame (if any) and the next
state.  (A decode error returns early without touching the state and emits
nothing, so error ticks are omitted from input sequences.) -/
def readSharedMemoryStep {ρ : Type} (st : GateState ρ) (physics : PhysicsMap ρ) :
    Option (PhysicsMap ρ) × GateState ρ :=
  if physics.packet_id = st.last_physics_id then (none, st)
  else
    match st.last_physics with
    | some lastPhysics =>
      if physics.isEqual lastPhysics then (none, st)
      else (some physics, ⟨physics.packet_id, some physics⟩)
    | none => (some physics, ⟨physics.packet_id, some physics⟩)

/-- Feeding a sequence of decoded physics frames through the gate:
the emitted frames in order, and the final state. -/
def runGate {ρ : Type} (st : GateState ρ) :
    List (PhysicsMap ρ) → List (PhysicsMap ρ) × GateState ρ
  | [] => ([], st)
  | p :: ps =>
    match readSharedMemoryStep st p with
    | (none, st') => runGate st' ps
    | (some f, st') => ((f :: (runGate st' ps).1), (runGate st' ps).2)

/-- Successor relation between consecutively emitted frames: the later frame
has a different sequence id and a different suspension-travel group. -/
def GateRel {ρ : Type} (a b : PhysicsMap ρ) : Prop :=
  b.packet_id ≠ a.packet_id ∧ b.suspension_travel ≠ a.suspension_travel

theorem step_id_eq {ρ : Type} (st : GateState ρ) (p : PhysicsMap ρ)
    (hid : p.packet_id = st.last_physics_id) :
    readSharedMemoryStep st p = (none, st) := by
  simp [readSharedMemoryStep, hid]

theorem step_fresh_none {ρ : Type} (st : GateState ρ) (p : PhysicsMap ρ)
    (hid : p.packet_id ≠ st.last_physics_id) (hlp : st.last_physics = none) :
    readSharedMemoryStep st p = (some p, ⟨p.packet_id, some p⟩) := by
  simp [readSharedMemoryStep, hid, hlp]

theorem step_stale {ρ : Type} (st : GateState ρ) (p lp : PhysicsMap ρ)
    (hid : p.packet_id ≠ st.last_physics_id) (hlp : st.last_physics = some lp)
    (heq : p.isEqual lp = true) :
    readSharedMemoryStep st p = (none, st) := by
  simp [readSharedMemoryStep, hid, hlp, heq]

theorem step_fresh_some {ρ : Type} (st : GateState ρ) (p lp : PhysicsMap ρ)
    (hid : p.packet_id ≠ st.last_physics_id) (hlp : st.last_physics = some lp)
    (heq : p.isEqual lp = false) :
    readSharedMemoryStep st p = (some p, ⟨p.packet_id, some p⟩) := by
  simp [readSharedMemoryStep, hid, hlp, heq]

theorem readSharedMemoryStep_miss1 {ρ : Type} (st : GateState ρ) (p : PhysicsMap ρ)
    (h : (readSharedMemoryStep st p).1 = none) :
    readSharedMemoryStep st p = (none, st) := by
  by_cases hid : p.packet_id = st.last_physics_id
  · exact step_id_eq st p hid
  · cases hlp : st.last_physics with
    | none =>
      rw [step_fresh_none st p hid hlp] at h
      simp at h
    | some lp =>
      rcases Bool.eq_false_or_eq_true (p.isEqual lp) with heq | heq
      · exact step_stale st p lp hid hlp heq
      · rw [step_fresh_some st p lp hid hlp heq] at h
        simp at h

theorem readSharedMemoryStep_emit1 {ρ : Type} (st : GateState ρ) (p f : PhysicsMap ρ)
    (h : (readSharedMemoryStep st p).1 = some f) :
    f = p ∧ p.packet_id ≠ st.last_physics_id ∧
      (∀ lp, st.last_physics = some lp → p.suspension_travel ≠ lp.suspension_travel) ∧
      readSharedMemoryStep st p = (some p, ⟨p.packet_id, some p⟩) := by
  by_cases hid : p.packet_id = st.last_physics_id
  · rw [step_id_eq st p hid] at h
    simp at h
  · cases hlp : st.last_physics with
    | none =>
      rw [step_fresh_none st p hid hlp] at h
      have h2 : some p = some f := h
      injection h2 with h3
      refine ⟨h3.symm, hid, ?_, step_fresh_none st p hid hlp⟩
      intro lp hlp2
      exact absurd hlp2 (by simp)
    | some lp =>
      rcases Bool.eq_false_or_eq_true (p.isEqual lp) with heq | heq
      · rw [step_stale st p lp hid hlp heq] at h
        simp at h
      · rw [step_fresh_some st p lp hid hlp heq] at h
        have h2 : some p = some f := h
        injection h2 with h3
        refine ⟨h3.symm, hid, ?_, step_fresh_some st p lp hid hlp heq⟩
        intro lp2 hlp2
        injection hlp2 with hlp3
        subst hlp3
        simpa [PhysicsMap.isEqual] using heq

theorem runGate_cons_none {ρ : Type} (st st2 : GateState ρ) (p : PhysicsMap ρ)
    (ps : List (PhysicsMap ρ)) (h : readSharedMemoryStep st p = (none, st2)) :
    runGate st (p :: ps) = runGate st2 ps := by
  rw [runGate, h]

theorem runGate_cons_some {ρ : Type} (st st2 : GateState ρ) (p f : PhysicsMap ρ)
    (ps : List (PhysicsMap ρ)) (h : readSharedMemoryStep st p = (some f, st2)) :
    runGate st (p :: ps) = (f :: (runGate st2 ps).1, (runGate st2 ps).2) := by
  rw [runGate, h]

theorem runGate_chain {ρ : Type} (inputs : List (PhysicsMap ρ)) :
    ∀ st : GateState ρ,
      (st.last_physics = none → List.Chain' GateRel (runGate st inputs).1) ∧
      (∀ f₀, st.last_physics = some f₀ → st.last_physics_id = f₀.packet_id →
        List.Chain' GateRel (f₀ :: (runGate st inputs).1)) := by
  induction inputs with
  | nil =>
    intro st
    exact ⟨fun _ => List.chain'_nil, fun f₀ _ _ => List.chain'_singleton f₀⟩
  | cons p ps ih =>
    intro st
    cases hopt : (readSharedMemoryStep st p).1 with
    | none =>
      have hE := readSharedMemoryStep_miss1 st p hopt
      constructor
      · intro hnone
        rw [runGate_cons_none st st p ps hE]
        exact (ih st).1 hnone
      · intro f₀ hsome hid
        rw [runGate_cons_none st st p ps hE]
        exact (ih st).2 f₀ hsome hid
    | some f =>
      obtain ⟨hfp, hneid, hsusp, hE⟩ := readSharedMemoryStep_emit1 st p f hopt
      constructor
      · intro _
        rw [runGate_cons_some st ⟨p.packet_id, some p⟩ p p ps hE]
        exact (ih ⟨p.packet_id, some p⟩).2 p rfl rfl
      · intro f₀ hsome hid
        rw [runGate_cons_some st ⟨p.packet_id, some p⟩ p p ps hE]
        refine List.Chain'.cons ?_ ((ih ⟨p.packet_id, some p⟩).2 p rfl rfl)
        exact ⟨by rw [hid] at hneid; exact hneid, hsusp f₀ hsome⟩

/-- C2: the freshness gate emits a frame only when the decoded `packet_id`
differs from the stored id and the suspension-travel probe says the frame
differs from the stored frame (vacuously when none is stored yet), updating
both stored values on a hit; consequently any two consecutively emitted
physics frames differ in sequence id or in the continuous-motion probe, and
the gate never emits an exact duplicate of the previously emitted frame. -/
theorem c2_freshness_gate_no_duplicates {ρ : Type} (inputs : List (PhysicsMap ρ))
    (i : Nat) (h : i + 1 < (runGate (GateState.init ρ) inputs).1.length) :
    ((∀ (st : GateState ρ) (p f : PhysicsMap ρ) (st2 : GateState ρ),
        readSharedMemoryStep st p = (some f, st2) →
        f = p ∧ p.packet_id ≠ st.last_physics_id ∧
          (∀ lp, st.last_physics = some lp → p.isEqual lp = false) ∧
          st2 = ⟨p.packet_id, some p⟩) ∧
      (((runGate (GateState.init ρ) inputs).1.get ⟨i + 1, h⟩).packet_id ≠
          ((runGate (GateState.init ρ) inputs).1.get ⟨i, by omega⟩).packet_id ∨
        ((runGate (GateState.init ρ) inputs).1.get ⟨i + 1, h⟩).isEqual
          ((runGate (GateState.init ρ) inputs).1.get ⟨i, by omega⟩) = false) ∧
      (runGate (GateState.init ρ) inputs).1.get ⟨i + 1, h⟩ ≠
        (runGate (GateState.init ρ) inputs).1.get ⟨i, by omega⟩) := by
  have hchain : List.Chain' GateRel (runGate (GateState.init ρ) inputs).1 :=
    (runGate_chain inputs (GateState.init ρ)).1 rfl
  have hrel : GateRel ((runGate (GateState.init ρ) inputs).1.get ⟨i, by omega⟩)
      ((runGate (GateState.init ρ) inputs).1.get ⟨i + 1, h⟩) := by
    rw [List.chain'_iff_get] at hchain
    exact hchain i (by omega)
  refine ⟨?_, ?_, ?_⟩
  · intro st p f st2 hstep
    have hopt : (readSharedMemoryStep st p).1 = some f := by rw [hstep]
    obtain ⟨hfp, hneid, hsusp, hE⟩ := readSharedMemoryStep_emit1 st p f hopt
    refine ⟨hfp, hneid, ?_, ?_⟩
    · intro lp hlp
      simpa [PhysicsMap.isEqual] using hsusp lp hlp
    · exact congrArg Prod.snd (hstep.symm.trans hE)
  · exact Or.inl hrel.1
  · intro heq
    exact hrel.2 (by rw [heq])

/-- Witness for C2 at a concrete run: two frames with fresh ids and distinct
suspension-travel groups are both emitted, and the consecutive pair differs. -/
theorem c2_freshness_gate_no_duplicates_witness :
    (0 + 1 < (runGate (GateState.init Unit)
        [⟨1, ⟨0, 0, 0, 0⟩, ()⟩, ⟨2, ⟨1, 0, 0, 0⟩, ()⟩]).1.length) ∧
      ((runGate (GateState.init Unit)
          [⟨1, ⟨0, 0, 0, 0⟩, ()⟩, ⟨2, ⟨1, 0, 0, 0⟩, ()⟩]).1.get
            ⟨1, by decide⟩ ≠
        (runGate (GateState.init Unit)
          [⟨1, ⟨0, 0, 0, 0⟩, ()⟩, ⟨2, ⟨1, 0, 0, 0⟩, ()⟩]).1.get ⟨0, by decide⟩) :=
  ⟨by decide,
    (c2_freshness_gate_no_duplicates
      [⟨1, ⟨0, 0, 0, 0⟩, ()⟩, ⟨2, ⟨1, 0, 0, 0⟩, ()⟩] 0 (by decide)).2.2⟩

theorem runGate_no_emission_state {ρ : Type} (inputs : List (PhysicsMap ρ)) :
    ∀ st : GateState ρ, (runGate st inputs).1 = [] → (runGate st inputs).2 = st := by
  induction inputs with
  | nil => intro st _; rfl
  | cons p ps ih =>
    intro st hnil
    cases hopt : (readSharedMemoryStep st p).1 with
    | none =>
      have hE := readSharedMemoryStep_miss1 st p hopt
      rw [runGate_cons_none st st p ps hE] at hnil ⊢
      exact ih st hnil
    | some f =>
      obtain ⟨_, _, _, hE⟩ := readSharedMemoryStep_emit1 st p f hopt
      rw [runGate_cons_some st ⟨p.packet_id, some p⟩ p p ps hE] at hnil
      simp at hnil

theorem c10_packet_id_zero_discarded {ρ : Type} (inputs : List (PhysicsMap ρ))
    (p : PhysicsMap ρ) (hp : p.packet_id = 0)
    (hnone : (runGate (GateState.init ρ) inputs).1 = []) :
    readSharedMemoryStep (runGate (GateState.init ρ) inputs).2 p =
        (none, GateState.init ρ) ∧
      (∀ st : GateState ρ, gateReset st = GateState.init ρ) := by
  have hst : (runGate (GateState.init ρ) inputs).2 = GateState.init ρ :=
    runGate_no_emission_state inputs (GateState.init ρ) hnone
  rw [hst]
  constructor
  · unfold readSharedMemoryStep GateState.init
    simp [hp]
  · intro st
    rfl

/-- Witness for C10: a first producer frame carrying sequence id 0 is
discarded by the fresh gate. -/
theorem c10_packet_id_zero_discarded_witness :
    readSharedMemoryStep (runGate (GateState.init Unit) []).2
        (⟨0, ⟨5, 5, 5, 5⟩, ()⟩ : PhysicsMap Unit) = (none, GateState.init Unit) :=
  (c10_packet_id_zero_discarded [] ⟨0, ⟨5, 5, 5, 5⟩, ()⟩ rfl rfl).1

/-! ## C3 / C4 / C5 — the analytical-store exporter

`export_to_sqlite` (`src/src/export/sqlite_export.rs` lines 220-610) opens
the database, runs the idempotent DDL, computes `dt = 1 / sample_rate_hz`
and `duration_secs = records.len() * dt`, and inside ONE transaction inserts
the recording row (surrogate id from the autoincrement counter), the notes
row, the annotation rows, the physics rows (`time_offset = i * dt`) and the
statics row, then commits.  `export_graphics_to_sqlite` (lines 617-774)
opens a SEPARATE connection and inserts the graphics rows inside its own
transaction.  `export_single` (`src/src/bin/acr_export.rs` lines 254-325)
runs the first, then — only if a paired graphics log exists — reads it and
runs the second.  `recording_exists` (lines 189-200) counts recording rows
by `source_file`; `batch_export` (lines 196-252) consults it as the skip
gate, `export_single` does not.

Row payloads: the claims quantify over row counts, `time_offset`,
`source_file`, `duration_secs`, `sample_count` and `recording_id`, so the
row models carry exactly those columns plus the originating record; the
~190 remaining flattened columns are value-for-value copies that no claim
reads.  A rusqlite call can fail (I/O); the failure oracle `SqliteEnv`
says which statement (if any) fails, and a transaction that fails leaves
the database exactly as it was (SQLite rollback). -/

/-- The fields of `PhysicsRecord` (`src/src/record.rs` lines 49-140) that
the verified claims read (`packet_id`, `speed_kmh`, `air_temp`); the
remaining ~150 columns are copied verbatim by the exporter and read by no
claim. -/
structure PhysicsRecord where
  packet_id : Int
  speed_kmh : ℚ
  air_temp : ℚ
deriving DecidableEq, Repr

/-- `GraphicsRecord` (`src/src/record.rs` lines 445-553): the claims only
count graphics rows, so one representative field suffices. -/
structure GraphicsRecord where
  packet_id : Int
deriving DecidableEq, Repr

/-- One entry of the `Annotation` struct of `src/src/notes.rs` lines 31-41
(`f64` as `ℚ`). -/
structure Annot where
  time_offset_sec : ℚ
  time_end_sec : Option ℚ
  text : String
  tag : String
deriving DecidableEq, Repr

/-- A `recordings` table row (`sqlite_export.rs` lines 13-19, insert at
lines 238-241). -/
structure RecordingRow where
  id : Int
  source_file : String
  duration_secs : ℚ
  sample_count : Nat
deriving DecidableEq, Repr

/-- A `physics` table row: key columns plus the originating record. -/
structure PhysicsRow where
  recording_id : Int
  time_offset : ℚ
  record : PhysicsRecord
deriving DecidableEq, Repr

/-- A `graphics` table row: key columns. -/
structure GraphicsRow where
  recording_id : Int
  time_offset : ℚ
deriving DecidableEq, Repr

/-- A `statics` table row (one per recording; content columns unread). -/
structure StaticsRow where
  recording_id : Int
deriving DecidableEq, Repr

/-- A `recording_notes` table row (one per recording; all columns
nullable and unread by the claims). -/
structure NotesRow where
  recording_id : Int
deriving DecidableEq, Repr

/-- An `annotations` table row (insert at lines 270-283). -/
structure AnnotRow where
  recording_id : Int
  time_offset_sec : ℚ
  time_end_sec : Option ℚ
  text : String
  tag : String
deriving DecidableEq, Repr

/-- The telemetry database: the six tables plus the autoincrement state of
`recordings.id` (`last_insert_rowid` source). -/
structure TelemetryDB where
  recordings : List RecordingRow
  physics : List PhysicsRow
  graphics : List GraphicsRow
  statics : List StaticsRow
  notes : List NotesRow
  annots : List AnnotRow
  nextId : Int
deriving DecidableEq, Repr

/-- A freshly created database (empty tables, first rowid 1). -/
def emptyDB : TelemetryDB := ⟨[], [], [], [], [], [], 1⟩

/-- Number of `recordings` rows with the given `source_file` — the count
probed by `recording_exists` (`sqlite_export.rs` lines 194-198). -/
def sourceCount (db : TelemetryDB) (sourceFile : String) : Nat :=
  (db.recordings.filter (fun r => r.source_file == sourceFile)).length

/-- `recording_exists` (`sqlite_export.rs` lines 189-200): `COUNT(*) > 0`
over `recordings` keyed by `source_file`. -/
def recordingExists (db : TelemetryDB) (sourceFile : String) : Bool :=
  decide (0 < sourceCount db sourceFile)

/-- Failure oracle for the rusqlite statements: which statement of which
phase (if any) fails with an I/O error.  `none`/`false` everywhere means
the run succeeds. -/
structure SqliteEnv where
  recordingInsertFails : Bool
  notesInsertFails : Bool
  annotInsertFailAt : Option Nat
  physicsInsertFailAt : Option Nat
  staticsInsertFails : Bool
  graphicsReadFails : Bool
  graphicsInsertFailAt : Option Nat
deriving DecidableEq, Repr

/-- The all-success oracle. -/
def envOk : SqliteEnv := ⟨false, false, none, none, false, false, none⟩

/-- Whether the annotation insert loop fails (it runs one statement per
annotation, so it can only fail when the failing index is inside the
list). -/
def annInsertFails (env : SqliteEnv) (annsOpt : Option (List Annot)) : Bool :=
  match env.annotInsertFailAt, annsOpt with
  | some k, some anns => decide (k < anns.length)
  | _, _ => false

/-- Whether the physics insert loop fails. -/
def physInsertFails (env : SqliteEnv) (records : List PhysicsRecord) : Bool :=
  match env.physicsInsertFailAt with
  | some k => decide (k < records.length)
  | none => false

/-- Whether the graphics insert loop fails. -/
def gfxInsertFails (env : SqliteEnv) (gfx : List GraphicsRecord) : Bool :=
  match env.graphicsInsertFailAt with
  | some k => decide (k < gfx.length)
  | none => false

/-- `export_to_sqlite` (`sqlite_export.rs` lines 220-610): one transaction
inserting, in source order, the recording row (surrogate id = next rowid),
the notes row, the annotation rows, the physics rows with
`time_offset = i * (1 / sample_rate_hz)`, and the statics row; commit.
Any failing statement aborts the transaction, leaving the database
unchanged and returning no id. -/
def exportToSqlite (env : SqliteEnv) (db : TelemetryDB) (sourceFile : String)
    (records : List PhysicsRecord) (sampleRateHz : Nat)
    (annsOpt : Option (List Annot)) : Option Int × TelemetryDB :=
  let dt : ℚ := 1 / (sampleRateHz : ℚ)
  let durationSecs : ℚ := (records.length : ℚ) * dt
  let rid : Int := db.nextId
  if env.recordingInsertFails then (none, db)
  else if env.notesInsertFails then (none, db)
  else if annInsertFails env annsOpt then (none, db)
  else if physInsertFails env records then (none, db)
  else if env.staticsInsertFails then (none, db)
  else
    (some rid,
      ⟨db.recordings ++ [⟨rid, sourceFile, durationSecs, records.length⟩],
       db.physics ++ records.enum.map (fun p => ⟨rid, (p.1 : ℚ) * dt, p.2⟩),
       db.graphics,
       db.statics ++ [⟨rid⟩],
       db.notes ++ [⟨rid⟩],
       db.annots ++ (annsOpt.getD []).map
         (fun a => ⟨rid, a.time_offset_sec, a.time_end_sec, a.text, a.tag⟩),
       db.nextId + 1⟩)

/-- `export_graphics_to_sqlite` (`sqlite_export.rs` lines 617-774): a
separate connection and its own transaction, inserting one graphics row
per record with `time_offset = i * (1 / sample_rate_hz)`. -/
def exportGraphicsToSqlite (env : SqliteEnv) (db : TelemetryDB) (rid : Int)
    (gfx : List GraphicsRecord) (sampleRateHz : Nat) : Bool × TelemetryDB :=
  let dt : ℚ := 1 / (sampleRateHz : ℚ)
  if gfxInsertFails env gfx then (false, db)
  else
    (true,
      ⟨db.recordings,
       db.physics,
       db.graphics ++ gfx.enum.map (fun p => ⟨rid, (p.1 : ℚ) * dt⟩),
       db.statics, db.notes, db.annots, db.nextId⟩)

/-- The SQLite path of `export_single` (`acr_export.rs` lines 254-325):
reject an empty record list before touching the database, run
`export_to_sqlite`, and then — only when a paired graphics log exists —
read it (which can fail) and run `export_graphics_to_sqlite`.  The result
id is `some` exactly on full success; on failure the database is left in
whatever state the completed transactions produced. -/
def exportSingle (env : SqliteEnv) (db : TelemetryDB) (sourceFile : String)
    (records : List PhysicsRecord) (sampleRateHz : Nat)
    (annsOpt : Option (List Annot))
    (gfxFile : Option (List GraphicsRecord)) (gfxSampleRateHz : Nat) :
    Option Int × TelemetryDB :=
  if records.isEmpty then (none, db)
  else
    match exportToSqlite env db sourceFile records sampleRateHz annsOpt with
    | (none, db1) => (none, db1)
    | (some rid, db1) =>
      match gfxFile with
      | none => (some rid, db1)
      | some gfx =>
        if env.graphicsReadFails then (none, db1)
        else
          match exportGraphicsToSqlite env db1 rid gfx gfxSampleRateHz with
          | (false, db2) => (none, db2)
          | (true, db2) => (some rid, db2)

/-- One file of `batch_export` (`acr_export.rs` lines 217-248): skip when
`recording_exists` answers yes, otherwise run `export_single` (an error is
logged and the batch continues, so the resulting database state is kept
either way). -/
def batchExportStep (env : SqliteEnv) (db : TelemetryDB) (sourceFile : String)
    (records : List PhysicsRecord) (sampleRateHz : Nat)
    (annsOpt : Option (List Annot))
    (gfxFile : Option (List GraphicsRecord)) (gfxSampleRateHz : Nat) : TelemetryDB :=
  if recordingExists db sourceFile then db
  else (exportSingle env db sourceFile records sampleRateHz annsOpt gfxFile gfxSampleRateHz).2

/-! ### C3 / C4 / C5 proofs -/

theorem exportToSqlite_none (env : SqliteEnv) (db : TelemetryDB) (src : String)
    (records : List PhysicsRecord) (hz : Nat) (annsOpt : Option (List Annot))
    (h : (exportToSqlite env db src records hz annsOpt).1 = none) :
    (exportToSqlite env db src records hz annsOpt).2 = db := by
  by_cases h1 : env.recordingInsertFails <;>
    by_cases h2 : env.notesInsertFails <;>
      by_cases h3 : annInsertFails env annsOpt <;>
        by_cases h4 : physInsertFails env records <;>
          by_cases h5 : env.staticsInsertFails <;>
            simp [exportToSqlite, h1, h2, h3, h4, h5] at h ⊢

theorem exportToSqlite_some (env : SqliteEnv) (db : TelemetryDB) (src : String)
    (records : List PhysicsRecord) (hz : Nat) (annsOpt : Option (List Annot))
    (rid : Int) (db' : TelemetryDB)
    (h : exportToSqlite env db src records hz annsOpt = (some rid, db')) :
    rid = db.nextId ∧
      db' = ⟨db.recordings ++
               [⟨db.nextId, src, (records.length : ℚ) * (1 / (hz : ℚ)), records.length⟩],
             db.physics ++
               records.enum.map (fun p => ⟨db.nextId, (p.1 : ℚ) * (1 / (hz : ℚ)), p.2⟩),
             db.graphics,
             db.statics ++ [⟨db.nextId⟩],
             db.notes ++ [⟨db.nextId⟩],
             db.annots ++ (annsOpt.getD []).map
               (fun a => ⟨db.nextId, a.time_offset_sec, a.time_end_sec, a.text, a.tag⟩),
             db.nextId + 1⟩ := by
  by_cases h1 : env.recordingInsertFails <;>
    by_cases h2 : env.notesInsertFails <;>
      by_cases h3 : annInsertFails env annsOpt <;>
        by_cases h4 : physInsertFails env records <;>
          by_cases h5 : env.staticsInsertFails <;>
            simp [exportToSqlite, h1, h2, h3, h4, h5, Prod.ext_iff, -one_div] at h
  exact ⟨h.1.symm, h.2.symm⟩

theorem exportGraphicsToSqlite_fail (env : SqliteEnv) (db : TelemetryDB) (rid : Int)
    (gfx : List GraphicsRecord) (ghz : Nat)
    (h : (exportGraphicsToSqlite env db rid gfx ghz).1 = false) :
    (exportGraphicsToSqlite env db rid gfx ghz).2 = db := by
  by_cases hg : gfxInsertFails env gfx <;> simp [exportGraphicsToSqlite, hg] at h ⊢

theorem exportGraphicsToSqlite_recordings (env : SqliteEnv) (db : TelemetryDB)
    (rid : Int) (gfx : List GraphicsRecord) (ghz : Nat) :
    (exportGraphicsToSqlite env db rid gfx ghz).2.recordings = db.recordings := by
  by_cases hg : gfxInsertFails env gfx <;> simp [exportGraphicsToSqlite, hg]

/-- C3: a successful `export_to_sqlite` writes a recording row whose
`sample_count` is the number of physics records and whose `duration_secs`
is `sample_count / target_hz`, and physics rows whose `time_offset` at
index `i` is `i / target_hz` (the code computes `i * (1 / target_hz)`,
which is the same rational). -/
theorem c3_recording_row_and_time_offsets (env : SqliteEnv) (db : TelemetryDB)
    (src : String) (records : List PhysicsRecord) (hz : Nat)
    (annsOpt : Option (List Annot)) (rid : Int) (db' : TelemetryDB)
    (h : exportToSqlite env db src records hz annsOpt = (some rid, db')) :
    db'.recordings = db.recordings ++
        [⟨rid, src, (records.length : ℚ) / (hz : ℚ), records.length⟩] ∧
      db'.physics = db.physics ++
        records.enum.map (fun p => (⟨rid, (p.1 : ℚ) / (hz : ℚ), p.2⟩ : PhysicsRow)) ∧
      ∀ i, ∀ hi : i < records.length,
        ((records.enum.map
            (fun p => (⟨rid, (p.1 : ℚ) / (hz : ℚ), p.2⟩ : PhysicsRow))).get
          ⟨i, by simpa using hi⟩).time_offset = (i : ℚ) / (hz : ℚ) := by
  obtain ⟨hrid, hdb⟩ := exportToSqlite_some env db src records hz annsOpt rid db' h
  subst hrid
  subst hdb
  refine ⟨by simp [div_eq_mul_inv, one_div], by simp [div_eq_mul_inv, one_div], ?_⟩
  intro i hi
  simp [List.get_eq_getElem, List.getElem_map, List.getElem_enum]

/-- Witness for C3 at a concrete export of two records at 333 Hz. -/
theorem c3_recording_row_and_time_offsets_witness :
    (exportToSqlite envOk emptyDB "f.rkyv" [⟨1, 0, 0⟩, ⟨2, 0, 0⟩] 333 none).2.recordings =
      emptyDB.recordings ++
        [⟨1, "f.rkyv", ((List.length [(⟨1, 0, 0⟩ : PhysicsRecord), ⟨2, 0, 0⟩] : Nat) : ℚ) /
            ((333 : Nat) : ℚ), List.length [(⟨1, 0, 0⟩ : PhysicsRecord), ⟨2, 0, 0⟩]⟩] :=
  (c3_recording_row_and_time_offsets envOk emptyDB "f.rkyv" [⟨1, 0, 0⟩, ⟨2, 0, 0⟩] 333 none
    1 (exportToSqlite envOk emptyDB "f.rkyv" [⟨1, 0, 0⟩, ⟨2, 0, 0⟩] 333 none).2 rfl).1

/-- C4 counterexample: with a paired graphics log whose read fails, the
export reports failure yet the store keeps the physics rows of the already
committed first transaction and no graphics rows — physics rows are
committed without their graphics rows, contradicting the single-transaction
reading of the claim. -/
theorem c4_counterexample_physics_without_graphics :
    (exportSingle ⟨false, false, none, none, false, true, none⟩ emptyDB "f.rkyv"
        [⟨1, 0, 0⟩] 333 none (some [⟨1⟩]) 60).1 = none ∧
      (exportSingle ⟨false, false, none, none, false, true, none⟩ emptyDB "f.rkyv"
          [⟨1, 0, 0⟩] 333 none (some [⟨1⟩]) 60).2.physics.length = 1 ∧
      (exportSingle ⟨false, false, none, none, false, true, none⟩ emptyDB "f.rkyv"
          [⟨1, 0, 0⟩] 333 none (some [⟨1⟩]) 60).2.graphics = [] :=
  ⟨rfl, rfl, rfl⟩

/-- C4 (amended): the offline export runs TWO write transactions, each
individually atomic — `export_to_sqlite` commits or aborts the recording,
notes, annotation, physics and statics rows as a unit, and
`export_graphics_to_sqlite` commits or aborts the graphics rows as a unit
on a separate connection; a failure in the graphics phase (the graphics
log read or its insert transaction) makes `export_single` fail while the
already committed physics transaction remains, so physics rows can persist
without their graphics rows. -/
theorem c4_two_atomic_transactions (env : SqliteEnv) (db db1 : TelemetryDB)
    (src : String) (records : List PhysicsRecord) (hz : Nat)
    (annsOpt : Option (List Annot)) (rid : Int)
    (gfx : List GraphicsRecord) (ghz : Nat) :
    ((exportToSqlite env db src records hz annsOpt).1 = none →
        (exportToSqlite env db src records hz annsOpt).2 = db) ∧
      ((exportGraphicsToSqlite env db rid gfx ghz).1 = false →
        (exportGraphicsToSqlite env db rid gfx ghz).2 = db) ∧
      (records.isEmpty = false →
        exportToSqlite env db src records hz annsOpt = (some rid, db1) →
        env.graphicsReadFails = true →
        exportSingle env db src records hz annsOpt (some gfx) ghz = (none, db1)) := by
  refine ⟨exportToSqlite_none env db src records hz annsOpt,
    exportGraphicsToSqlite_fail env db rid gfx ghz, ?_⟩
  intro hne hphys hgr
  simp [exportSingle, hne, hphys, hgr]

/-- Witness for C4 (amended): concrete aborted physics transaction leaves
the empty store untouched, and a concrete graphics-read failure leaves the
committed physics state. -/
theorem c4_two_atomic_transactions_witness :
    (exportToSqlite ⟨true, false, none, none, false, false, none⟩ emptyDB "f.rkyv"
          [⟨1, 0, 0⟩] 333 none).1 = none ∧
      (exportToSqlite ⟨true, false, none, none, false, false, none⟩ emptyDB "f.rkyv"
          [⟨1, 0, 0⟩] 333 none).2 = emptyDB :=
  ⟨rfl,
    (c4_two_atomic_transactions ⟨true, false, none, none, false, false, none⟩ emptyDB
      emptyDB "f.rkyv" [⟨1, 0, 0⟩] 333 none 1 [] 60).1 rfl⟩

/-- C5 counterexample: single-file export never consults
`recording_exists`, so exporting the same source file twice against the
same store inserts two recording rows with that filename. -/
theorem c5_counterexample_single_file_duplicates :
    sourceCount (exportSingle envOk
        (exportSingle envOk emptyDB "f.rkyv" [⟨1, 0, 0⟩] 333 none none 60).2
        "f.rkyv" [⟨1, 0, 0⟩] 333 none none 60).2 "f.rkyv" = 2 := rfl

theorem exportSingle_success_recordings (env : SqliteEnv) (db : TelemetryDB)
    (src : String) (records : List PhysicsRecord) (hz : Nat)
    (annsOpt : Option (List Annot)) (gfxFile : Option (List GraphicsRecord)) (ghz : Nat)
    (hsucc : (exportSingle env db src records hz annsOpt gfxFile ghz).1.isSome = true) :
    (exportSingle env db src records hz annsOpt gfxFile ghz).2.recordings =
      db.recordings ++
        [⟨db.nextId, src, (records.length : ℚ) * (1 / (hz : ℚ)), records.length⟩] := by
  obtain ⟨o, db1, hE⟩ : ∃ o db1, exportToSqlite env db src records hz annsOpt = (o, db1) :=
    ⟨_, _, rfl⟩
  by_cases hemp : records.isEmpty
  · simp [exportSingle, hemp] at hsucc
  · rw [Bool.not_eq_true] at hemp
    cases o with
    | none => simp [exportSingle, hemp, hE] at hsucc
    | some rid =>
      obtain ⟨hrid, hdb1⟩ := exportToSqlite_some env db src records hz annsOpt rid db1 hE
      cases gfxFile with
      | none =>
        rw [show (exportSingle env db src records hz annsOpt none ghz).2 = db1 by
          simp [exportSingle, hemp, hE]]
        rw [hdb1]
      | some gfx =>
        by_cases hgr : env.graphicsReadFails
        · simp [exportSingle, hemp, hE, hgr] at hsucc
        · rw [Bool.not_eq_true] at hgr
          obtain ⟨ok, db2, hG⟩ :
              ∃ ok db2, exportGraphicsToSqlite env db1 rid gfx ghz = (ok, db2) :=
            ⟨_, _, rfl⟩
          cases ok with
          | false => simp [exportSingle, hemp, hE, hgr, hG] at hsucc
          | true =>
            rw [show (exportSingle env db src records hz annsOpt (some gfx) ghz).2 = db2 by
              simp [exportSingle, hemp, hE, hgr, hG]]
            have := exportGraphicsToSqlite_recordings env db1 rid gfx ghz
            rw [hG] at this
            rw [this, hdb1]

/-- C5 (amended): the `recording_exists` probe is the skip gate of BATCH
export only: from a store with no row for the source file, one successful
batch step inserts exactly one recording row with that filename, and a
second batch step over the same file is a no-op skip (single-file export,
by contrast, never probes — see the counterexample). -/
theorem c5_batch_skip_is_idempotent (env : SqliteEnv) (db : TelemetryDB)
    (src : String) (records : List PhysicsRecord) (hz : Nat)
    (annsOpt : Option (List Annot)) (gfxFile : Option (List GraphicsRecord)) (ghz : Nat)
    (h0 : sourceCount db src = 0)
    (hsucc : (exportSingle env db src records hz annsOpt gfxFile ghz).1.isSome = true) :
    sourceCount (batchExportStep env db src records hz annsOpt gfxFile ghz) src = 1 ∧
      batchExportStep env (batchExportStep env db src records hz annsOpt gfxFile ghz)
          src records hz annsOpt gfxFile ghz =
        batchExportStep env db src records hz annsOpt gfxFile ghz := by
  have hex : recordingExists db src = false := by
    simp [recordingExists, h0]
  have hb1 : batchExportStep env db src records hz annsOpt gfxFile ghz =
      (exportSingle env db src records hz annsOpt gfxFile ghz).2 := by
    simp [batchExportStep, hex]
  have hrecs := exportSingle_success_recordings env db src records hz annsOpt gfxFile ghz hsucc
  have hcount : sourceCount (exportSingle env db src records hz annsOpt gfxFile ghz).2 src = 1 := by
    unfold sourceCount
    rw [hrecs, List.filter_append, List.length_append]
    have h0f : (db.recordings.filter (fun r => r.source_file == src)).length = 0 := h0
    rw [h0f]
    simp [List.filter]
  constructor
  · rw [hb1]
    exact hcount
  · rw [hb1]
    have hex2 : recordingExists (exportSingle env db src records hz annsOpt gfxFile ghz).2 src
        = true := by
      simp [recordingExists, hcount]
    simp [batchExportStep, hex2]

/-- Witness for C5 (amended) at a concrete one-record export. -/
theorem c5_batch_skip_is_idempotent_witness :
    sourceCount (batchExportStep envOk emptyDB "f.rkyv" [⟨1, 0, 0⟩] 333 none none 60)
        "f.rkyv" = 1 :=
  (c5_batch_skip_is_idempotent envOk emptyDB "f.rkyv" [⟨1, 0, 0⟩] 333 none none 60
    rfl rfl).1

/-! ## C7 — synthesized sync annotations

`sync_annotations_from_physics` (`src/src/bin/acr_export.rs` lines 24-51)
scans the record list once: at index `i` it pushes an air-temp annotation
when `air_temp > 0` and (`i == 0` or the previous `air_temp ≤ 0`), and —
while the one-shot flag is unset — a speed annotation when `speed_kmh > 3`
and (`i == 0` or the previous `speed_kmh ≤ 3`), setting the flag; each
annotation's time is `i * dt_sec`, and the output is sorted by
`time_offset_sec`.  `export_single` (lines 292-296) passes
`dt_sec = 1 / sample_rate`, appends the user annotations and sorts the
merged list by `time_offset_sec`. -/

/-- Tag of an air-temp sync annotation (`acr_export.rs` line 35). -/
def syncAirTag : String := "sync_air_temp_gt_0"

/-- Tag of the speed sync annotation (`acr_export.rs` line 45). -/
def syncSpeedTag : String := "sync_speed_gt_0"

/-- Display text of an air-temp sync annotation (`acr_export.rs` line 34
formats the value with one decimal; the claims never read the text, so the
model renders the exact rational). -/
def airTempText (t : ℚ) : String := "air_temp > 0 (" ++ toString t ++ " °C)"

/-- Display text of the speed sync annotation (`acr_export.rs` line 44). -/
def speedText (v : ℚ) : String := "speed_kmh > 3 (" ++ toString v ++ " km/h)"

/-- The air-temp rising-edge test at index `i` (`acr_export.rs` line 30):
`records[i].air_temp > 0` and (`i == 0` or `records[i-1].air_temp ≤ 0`);
the value before index 0 counts as non-positive. -/
def airEdgeAt (records : List PhysicsRecord) (i : Nat) : Bool :=
  decide (0 < (records.getD i ⟨0, 0, 0⟩).air_temp) &&
    (decide (i = 0) || decide ((records.getD (i - 1) ⟨0, 0, 0⟩).air_temp ≤ 0))

/-- The speed rising-edge test at index `i` (`acr_export.rs` line 39):
`records[i].speed_kmh > 3` and (`i == 0` or `records[i-1].speed_kmh ≤ 3`). -/
def speedEdgeAt (records : List PhysicsRecord) (i : Nat) : Bool :=
  decide (3 < (records.getD i ⟨0, 0, 0⟩).speed_kmh) &&
    (decide (i = 0) || decide ((records.getD (i - 1) ⟨0, 0, 0⟩).speed_kmh ≤ 3))

/-- Air-temp annotation pushed at index `i` (`acr_export.rs` lines 31-37). -/
def airAnn (records : List PhysicsRecord) (dtSec : ℚ) (i : Nat) : Annot :=
  ⟨(i : ℚ) * dtSec, none, airTempText (records.getD i ⟨0, 0, 0⟩).air_temp, syncAirTag⟩

/-- Speed annotation pushed at index `i` (`acr_export.rs` lines 41-46). -/
def speedAnn (records : List PhysicsRecord) (dtSec : ℚ) (i : Nat) : Annot :=
  ⟨(i : ℚ) * dtSec, none, speedText (records.getD i ⟨0, 0, 0⟩).speed_kmh, syncSpeedTag⟩

/-- The relation `sort_by(partial_cmp on time_offset_sec)` sorts by. -/
def annTimeLe (a b : Annot) : Prop := a.time_offset_sec ≤ b.time_offset_sec

instance : DecidableRel annTimeLe := fun a b =>
  inferInstanceAs (Decidable (a.time_offset_sec ≤ b.time_offset_sec))

instance : IsTotal Annot annTimeLe :=
  ⟨fun a b => le_total a.time_offset_sec b.time_offset_sec⟩

instance : IsTrans Annot annTimeLe :=
  ⟨fun _ _ _ hab hbc => le_trans hab hbc⟩

/-- Stable sort ascending by `time_offset_sec` (`acr_export.rs` lines 49
and 296). -/
def sortByTime (l : List Annot) : List Annot := l.insertionSort annTimeLe

/-- One iteration of the `sync_annotations_from_physics` loop on the state
`(annotations so far, added_first_speed)`. -/
def syncStep (records : List PhysicsRecord) (dtSec : ℚ)
    (st : List Annot × Bool) (i : Nat) : List Annot × Bool :=
  let out1 := if airEdgeAt records i then st.1 ++ [airAnn records dtSec i] else st.1
  let fired := !st.2 && speedEdgeAt records i
  ((if fired then out1 ++ [speedAnn records dtSec i] else out1), st.2 || fired)

/-- `sync_annotations_from_physics` (`acr_export.rs` lines 24-51): the
index loop followed by the final sort by `time_offset_sec`. -/
def syncAnnotationsFromPhysics (records : List PhysicsRecord) (dtSec : ℚ) : List Annot :=
  sortByTime ((List.range records.length).foldl (syncStep records dtSec) ([], false)).1

/-- Merging with user annotations in `export_single` (`acr_export.rs`
lines 294-296): append, then sort by `time_offset_sec`. -/
def mergedAnnotations (sync user : List Annot) : List Annot :=
  sortByTime (sync ++ user)

/-- Declarative reading of the loop: per remaining index, the air
annotation at every air edge, plus the speed annotation while the one-shot
flag is unset and a speed edge occurs (setting the flag). -/
def specEmit (records : List PhysicsRecord) (dtSec : ℚ) :
    List Nat → Bool → List Annot
  | [], _ => []
  | i :: is, flag =>
    (if airEdgeAt records i then [airAnn records dtSec i] else []) ++
      (if !flag && speedEdgeAt records i then [speedAnn records dtSec i] else []) ++
      specEmit records dtSec is (flag || speedEdgeAt records i)

theorem foldl_syncStep_spec (records : List PhysicsRecord) (dtSec : ℚ) (is : List Nat) :
    ∀ (out : List Annot) (flag : Bool),
      (is.foldl (syncStep records dtSec) (out, flag)).1 =
        out ++ specEmit records dtSec is flag := by
  induction is with
  | nil => intro out flag; simp [specEmit]
  | cons i is ih =>
    intro out flag
    cases flag <;> cases ha : airEdgeAt records i <;> cases he : speedEdgeAt records i <;>
      simp [List.foldl_cons, syncStep, specEmit, ha, he, ih, List.append_assoc]

theorem specEmit_flag_true (records : List PhysicsRecord) (dtSec : ℚ) :
    ∀ is : List Nat, specEmit records dtSec is true =
      is.flatMap (fun i => if airEdgeAt records i then [airAnn records dtSec i] else []) := by
  intro is
  induction is with
  | nil => simp [specEmit]
  | cons i is ih => simp [specEmit, ih]

theorem specEmit_flag_false (records : List PhysicsRecord) (dtSec : ℚ) :
    ∀ is : List Nat, is.Nodup →
      specEmit records dtSec is false =
        is.flatMap (fun i =>
          (if airEdgeAt records i then [airAnn records dtSec i] else []) ++
            (if is.find? (speedEdgeAt records) = some i
              then [speedAnn records dtSec i] else [])) := by
  intro is
  induction is with
  | nil => intro _; simp [specEmit]
  | cons i is ih =>
    intro hnd
    rw [List.nodup_cons] at hnd
    cases he : speedEdgeAt records i with
    | false =>
      have hfind : (i :: is).find? (speedEdgeAt records) = is.find? (speedEdgeAt records) :=
        List.find?_cons_of_neg _ (by simp [he])
      have hni : is.find? (speedEdgeAt records) ≠ some i := fun hc =>
        hnd.1 (List.mem_of_find?_eq_some hc)
      rw [specEmit]
      simp [he, ih hnd.2, hfind, hni]
    | true =>
      have hfind : (i :: is).find? (speedEdgeAt records) = some i :=
        List.find?_cons_of_pos _ (by simp [he])
      have htail : is.flatMap (fun j =>
            (if airEdgeAt records j then [airAnn records dtSec j] else []) ++
              (if (i :: is).find? (speedEdgeAt records) = some j
                then [speedAnn records dtSec j] else [])) =
          is.flatMap (fun j =>
            if airEdgeAt records j then [airAnn records dtSec j] else []) := by
        apply List.flatMap_congr
        intro j hj
        have hcond : ¬ (List.find? (speedEdgeAt records) (i :: is) = some j) := by
          rw [hfind]
          intro hc
          injection hc with hc2
          subst hc2
          exact hnd.1 hj
        simp [hcond]
      rw [specEmit, List.flatMap_cons, htail, hfind]
      simp [he, specEmit_flag_true, List.append_assoc]

/-- The list of indices where the one-shot speed annotation can fire: the
first speed rising edge, if any. -/
def firstSpeedIdx (records : List PhysicsRecord) : Option Nat :=
  (List.range records.length).find? (speedEdgeAt records)

/-- The claim-side description of the synthesized annotations, in index
order with times `i / target_hz`: one air-temp annotation at every air
rising edge, and the speed annotation exactly at the first speed rising
edge. -/
def syncSpecList (records : List PhysicsRecord) (hz : Nat) : List Annot :=
  (List.range records.length).flatMap (fun i =>
    (if airEdgeAt records i then
        [⟨(i : ℚ) / (hz : ℚ), none,
          airTempText (records.getD i ⟨0, 0, 0⟩).air_temp, syncAirTag⟩]
      else []) ++
      (if firstSpeedIdx records = some i then
        [⟨(i : ℚ) / (hz : ℚ), none,
          speedText (records.getD i ⟨0, 0, 0⟩).speed_kmh, syncSpeedTag⟩]
      else []))

/-- C7: with `dt = 1 / target_hz`, the synthesized sync annotations are
exactly (up to the final stable sort by `time_offset_sec`) one air-temp
annotation at every rising edge of `air_temp` across 0 — index 0 counting
as an edge when already positive — and one speed annotation at the first
rising edge of `speed_kmh` across 3 with all later crossings ignored, each
with time offset `index / target_hz`; and the combined output merged with
any user annotations is sorted ascending by `time_offset_sec`. -/
theorem c7_sync_annotations_spec (records : List PhysicsRecord) (hz : Nat)
    (user : List Annot) :
    syncAnnotationsFromPhysics records (1 / (hz : ℚ)) =
        sortByTime (syncSpecList records hz) ∧
      List.Sorted annTimeLe
        (mergedAnnotations (syncAnnotationsFromPhysics records (1 / (hz : ℚ))) user) := by
  constructor
  · unfold syncAnnotationsFromPhysics
    rw [foldl_syncStep_spec, specEmit_flag_false records _ _ (List.nodup_range _)]
    unfold sortByTime syncSpecList firstSpeedIdx
    congr 1
    apply List.flatMap_congr
    intro i _
    unfold airAnn speedAnn
    simp [div_eq_mul_inv, one_div]
  · exact List.sorted_insertionSort annTimeLe _

/-! ## C6 — the annotation-driven slicer

`acr_analysis_export.rs`: `read_grafana_annotations` (lines 159-182) joins
`annotation ⋈ annotation_tag ⋈ tag` on the tag literal `rid_<recording_id>`,
orders by `epoch`, and converts epochs to offsets with
`epoch_ms / 1000 − 1 000 000 000` (lines 153-155).  `run_export`
(lines 184-319) with a nonempty range list deletes the destination rows for
the recording, wipes and re-imports the three mirror tables, copies the
`recordings` and `statics` rows, and per range `[s, e]` copies the
`graphics` rows and the `physics` rows with `s ≤ time_offset ≤ e`, tagging
each copied physics row with the source `annotation_id` (lines 296-303);
with no ranges it clears the recording's rows instead (lines 198-212). -/

/-- A Grafana `annotation` table row: the projected columns. -/
structure GrafanaAnnotationRow where
  id : Int
  epoch : Int
  epoch_end : Option Int
deriving DecidableEq, Repr

/-- A Grafana `tag` table row. -/
structure GrafanaTagRow where
  id : Int
  key : String
deriving DecidableEq, Repr

/-- A Grafana `annotation_tag` join-table row. -/
structure GrafanaAnnotationTagRow where
  annotation_id : Int
  tag_id : Int
deriving DecidableEq, Repr

/-- The read-only Grafana annotation store. -/
structure GrafanaDB where
  annotation_rows : List GrafanaAnnotationRow
  annotation_tag_rows : List GrafanaAnnotationTagRow
  tag_rows : List GrafanaTagRow
deriving DecidableEq, Repr

/-- `epoch_ms_to_offset` (`acr_analysis_export.rs` lines 153-155). -/
def epochMsToOffset (epochMs : Int) : ℚ :=
  (epochMs : ℚ) / 1000 - 1000000000

/-- Ordering of the projected ranges by start offset; `ORDER BY a.epoch`
coincides with it because the epoch-to-offset map is monotone. -/
def rangeLe (x y : Int × ℚ × ℚ) : Prop := x.2.1 ≤ y.2.1

instance : DecidableRel rangeLe := fun x y =>
  inferInstanceAs (Decidable (x.2.1 ≤ y.2.1))

instance : IsTotal (Int × ℚ × ℚ) rangeLe := ⟨fun x y => le_total x.2.1 y.2.1⟩

instance : IsTrans (Int × ℚ × ℚ) rangeLe := ⟨fun _ _ _ h1 h2 => le_trans h1 h2⟩

/-- `read_grafana_annotations` (`acr_analysis_export.rs` lines 159-182):
the three-way join keyed on `tag.key = "rid_<recording_id>"`, projected to
`(id, start offset, end offset)` with `COALESCE(epoch_end, epoch)`,
ordered by epoch. -/
def readGrafanaAnnotations (g : GrafanaDB) (recordingId : Int) :
    List (Int × ℚ × ℚ) :=
  (g.annotation_rows.flatMap (fun a =>
    (g.annotation_tag_rows.filter (fun atr => atr.annotation_id == a.id)).flatMap
      (fun atr =>
        (g.tag_rows.filter (fun t =>
            t.id == atr.tag_id && t.key == ("rid_" ++ toString recordingId))).map
          (fun _ =>
            (a.id, epochMsToOffset a.epoch,
              epochMsToOffset (a.epoch_end.getD a.epoch)))))).insertionSort rangeLe

/-- An analysis-store `physics` row: the telemetry physics columns plus the
`annotation_id` tag column (`acr_analysis_export.rs` lines 73-132). -/
structure AnalysisPhysicsRow where
  recording_id : Int
  time_offset : ℚ
  record : PhysicsRecord
  annotation_id : Int
deriving DecidableEq, Repr

/-- The destination analysis store (tables of
`acr_analysis_export.rs` lines 20-151). -/
structure AnalysisDB where
  physics : List AnalysisPhysicsRow
  graphics : List GraphicsRow
  statics : List StaticsRow
  recordings : List RecordingRow
  annotation_rows : List GrafanaAnnotationRow
  annotation_tag_rows : List GrafanaAnnotationTagRow
  tag_rows : List GrafanaTagRow
deriving DecidableEq, Repr

/-- `run_export` (`acr_analysis_export.rs` lines 184-319) on the
destination store: with no matching annotations, clear the recording's
rows and the mirror tables (lines 198-212); otherwise one transaction
deletes the recording's rows, replaces the mirror tables with the rows
referenced by the selected annotations, copies the `recordings` and
`statics` rows, and per range copies the `graphics` rows and the
`physics` rows inside the time-offset window, the latter tagged with the
range's `annotation_id` (lines 235-305). -/
def runExportSlice (g : GrafanaDB) (srcDb : TelemetryDB) (dest : AnalysisDB)
    (rid : Int) : AnalysisDB :=
  let ranges := readGrafanaAnnotations g rid
  if ranges.isEmpty then
    ⟨dest.physics.filter (fun p => p.recording_id != rid),
     dest.graphics.filter (fun gr => gr.recording_id != rid),
     dest.statics.filter (fun s => s.recording_id != rid),
     dest.recordings.filter (fun r => r.id != rid),
     [], [], []⟩
  else
    let annIds := ranges.map (fun r => r.1)
    let tagIds := ((annIds.flatMap (fun i =>
      (g.annotation_tag_rows.filter (fun atr => atr.annotation_id == i)).map
        (fun atr => atr.tag_id))).insertionSort (· ≤ ·)).dedup
    ⟨dest.physics.filter (fun p => p.recording_id != rid) ++
       ranges.flatMap (fun r =>
         (srcDb.physics.filter (fun p =>
             p.recording_id == rid && decide (r.2.1 ≤ p.time_offset) &&
               decide (p.time_offset ≤ r.2.2))).map
           (fun p => ⟨p.recording_id, p.time_offset, p.record, r.1⟩)),
     dest.graphics.filter (fun gr => gr.recording_id != rid) ++
       ranges.flatMap (fun r =>
         (srcDb.graphics.filter (fun gr =>
             gr.recording_id == rid && decide (r.2.1 ≤ gr.time_offset) &&
               decide (gr.time_offset ≤ r.2.2))).map
           (fun gr => ⟨gr.recording_id, gr.time_offset⟩)),
     dest.statics.filter (fun s => s.recording_id != rid) ++
       (srcDb.statics.filter (fun s => s.recording_id == rid)).map
         (fun s => ⟨s.recording_id⟩),
     dest.recordings.filter (fun r2 => r2.id != rid) ++
       srcDb.recordings.filter (fun r2 => r2.id == rid),
     g.annotation_rows.filter (fun a => annIds.contains a.id),
     g.annotation_tag_rows.filter (fun atr => annIds.contains atr.annotation_id),
     g.tag_rows.filter (fun t => tagIds.contains t.id)⟩

/-- C6: after a slicer run, every physics row in the destination for the
target `recording_id` lies inside the time-offset window `[s, e]` of some
source annotation range and carries that range's `annotation_id`; and
every range handed to the copy loop is an annotation-store row's id with
offsets derived by `epoch_ms / 1000 − 1 000 000 000`. -/
theorem c6_slicer_rows_within_ranges (g : GrafanaDB) (srcDb : TelemetryDB)
    (dest : AnalysisDB) (rid : Int) :
    (((runExportSlice g srcDb dest rid).physics.filter
        (fun p => p.recording_id == rid)).Forall (fun row =>
      ∃ r ∈ readGrafanaAnnotations g rid,
        row.annotation_id = r.1 ∧ r.2.1 ≤ row.time_offset ∧
          row.time_offset ≤ r.2.2)) ∧
      ((readGrafanaAnnotations g rid).Forall (fun r =>
        ∃ a ∈ g.annotation_rows,
          r = (a.id, epochMsToOffset a.epoch,
            epochMsToOffset (a.epoch_end.getD a.epoch)))) := by
  constructor
  · rw [List.forall_iff_forall_mem]
    intro row hrow
    rw [List.mem_filter] at hrow
    obtain ⟨hmem, hbeq⟩ := hrow
    have hrid : row.recording_id = rid := by
      simpa using hbeq
    unfold runExportSlice at hmem
    by_cases hemp : (readGrafanaAnnotations g rid).isEmpty
    · simp only [hemp, if_true] at hmem
      rw [List.mem_filter] at hmem
      simp [hrid] at hmem
    · simp only [hemp, Bool.false_eq_true, if_false] at hmem
      rw [List.mem_append] at hmem
      cases hmem with
      | inl hold =>
        rw [List.mem_filter] at hold
        simp [hrid] at hold
      | inr hnew =>
        rw [List.mem_flatMap] at hnew
        obtain ⟨r, hr, hrow2⟩ := hnew
        refine ⟨r, hr, ?_⟩
        rw [List.mem_map] at hrow2
        obtain ⟨p, hp, hrowp⟩ := hrow2
        rw [List.mem_filter] at hp
        obtain ⟨-, hcond⟩ := hp
        simp only [Bool.and_eq_true, decide_eq_true_eq, beq_iff_eq] at hcond
        subst hrowp
        exact ⟨rfl, hcond.1.2, hcond.2⟩
  · rw [List.forall_iff_forall_mem]
    intro r hr
    unfold readGrafanaAnnotations at hr
    rw [(List.perm_insertionSort rangeLe _).mem_iff] at hr
    rw [List.mem_flatMap] at hr
    obtain ⟨a, ha, hr2⟩ := hr
    rw [List.mem_flatMap] at hr2
    obtain ⟨atr, hatr, hr3⟩ := hr2
    rw [List.mem_map] at hr3
    obtain ⟨t, ht, hrt⟩ := hr3
    exact ⟨a, ha, hrt.symm⟩

/-! ## C8 — marker-line parsing in the notes ingestor

`parse_annotation_line` (`src/src/notes.rs` lines 106-135): trim the line;
return nothing when the trimmed line is empty or does not contain
`"#marker "`; otherwise take the number inside the first `"[elapsed ...]"`
bracket (trimmed, trailing `'s'` characters stripped, defaulting to 0.0
when absent or unparsable) as `time_offset_sec`, the trimmed text between
`"#marker "` and the next `'#'` (default `"marker"`) as the tag, and the
tag itself as the text; `save_notes_to_json` (lines 153-163) stores each
such line as an annotation with `time_end_sec = None`.

Strings are modelled as their character lists (every pattern involved is
ASCII, so Rust's byte indices coincide with character positions), and
trimming uses `Char.isWhitespace` (the ASCII subset of Rust's
`char::is_whitespace`, enough for every character class the claims touch). -/

/-- `str::trim` on a character list. -/
def trimChars (l : List Char) : List Char :=
  ((l.dropWhile Char.isWhitespace).reverse.dropWhile Char.isWhitespace).reverse

/-- `str::trim_end_matches('s')`: strip every trailing `'s'`. -/
def dropTrailingS (l : List Char) : List Char :=
  (l.reverse.dropWhile (fun c => c == 's')).reverse

/-- `str::find(pat)` followed by slicing off everything up to and
including the first occurrence: the suffix after the first occurrence of
`pat`, or `none` when absent. -/
def afterFirst (pat : List Char) : List Char → Option (List Char)
  | [] => if pat.isPrefixOf [] then some [] else none
  | c :: t =>
    if pat.isPrefixOf (c :: t) then some ((c :: t).drop pat.length)
    else afterFirst pat t

/-- `str::contains(pat)`. -/
def containsSub (hay pat : List Char) : Bool :=
  (afterFirst pat hay).isSome

/-- The literal `"#marker "` (`notes.rs` lines 108, 124). -/
def markerPat : List Char := "#marker ".toList

/-- The literal `"[elapsed "` (`notes.rs` line 115). -/
def elapsedPat : List Char := "[elapsed ".toList

/-- Digit run to number. -/
def digitsToNat (l : List Char) : Nat :=
  l.foldl (fun acc c => acc * 10 + (c.toNat - 48)) 0

/-- All characters are decimal digits. -/
def allDigits (l : List Char) : Bool :=
  l.all (fun c => decide ('0' ≤ c) && decide (c ≤ '9'))

/-- `str::parse::<f64>` on the plain decimal literals the elapsed bracket
produces: optional sign, integer digits, optional `'.'` and fraction
digits, exact over `ℚ`.  (The full Rust parser also accepts exponent and
inf/nan spellings, which the notes format never produces.) -/
def parseDecimal (l : List Char) : Option ℚ :=
  let signRest : ℚ × List Char :=
    match l with
    | '-' :: t => (-1, t)
    | '+' :: t => (1, t)
    | _ => (1, l)
  let intPart := signRest.2.takeWhile (fun c => c != '.')
  let dotFrac := signRest.2.dropWhile (fun c => c != '.')
  match dotFrac with
  | [] =>
    if intPart ≠ [] ∧ allDigits intPart = true then
      some (signRest.1 * (digitsToNat intPart : ℚ))
    else none
  | _ :: frac =>
    if (intPart ≠ [] ∨ frac ≠ []) ∧ allDigits intPart = true ∧ allDigits frac = true then
      some (signRest.1 *
        ((digitsToNat intPart : ℚ) + (digitsToNat frac : ℚ) / (10 : ℚ) ^ frac.length))
    else none

/-- The `time_offset_sec` of a marker line (`notes.rs` lines 111-122):
the number inside the first `"[elapsed Ns]"` bracket — content up to the
first `']'`, trimmed, trailing `'s'` stripped, trimmed again, parsed —
defaulting to 0 when the bracket is absent or the number unparsable. -/
def parsedTime (l : List Char) : ℚ :=
  match afterFirst elapsedPat l with
  | some rest =>
    match parseDecimal
        (trimChars (dropTrailingS
          (trimChars (rest.takeWhile (fun c => c != ']'))))) with
    | some n => n
    | none => 0
  | none => 0

/-- The tag of a marker line (`notes.rs` lines 123-131): the trimmed text
between `"#marker "` and the next `'#'`, defaulting to `"marker"` when
empty. -/
def parsedTag (l : List Char) : String :=
  match afterFirst markerPat l with
  | some rest =>
    if (trimChars (rest.takeWhile (fun c => c != '#'))).isEmpty then "marker"
    else String.mk (trimChars (rest.takeWhile (fun c => c != '#')))
  | none => "marker"

/-- `parse_annotation_line` (`notes.rs` lines 106-135), returning
`(time_offset_sec, tag, text)` — with text equal to the tag — exactly when
the trimmed line contains `"#marker "`. -/
def parseAnnotationLine (line : String) : Option (ℚ × String × String) :=
  if (trimChars line.toList).isEmpty ||
      !containsSub (trimChars line.toList) markerPat then none
  else
    some (parsedTime (trimChars line.toList), parsedTag (trimChars line.toList),
      parsedTag (trimChars line.toList))

/-- C8 counterexample: the line consisting of `"#marker "` alone contains
the literal substring `"#marker "`, yet yields no annotation — the code
trims the line first, and the trimmed text `"#marker"` no longer contains
the pattern, refuting the claimed "iff it contains the literal substring"
on the raw line. -/
theorem c8_counterexample_trailing_space :
    containsSub "#marker ".toList markerPat = true ∧
      parseAnnotationLine "#marker " = none :=
  ⟨rfl, rfl⟩

/-- C8 (amended): a line yields an annotation iff its TRIMMED text
contains the literal substring `"#marker "`; the annotation's
`time_offset_sec` comes from the `"[elapsed Ns]"` bracket (0.0 when
absent), its text equals its tag, and it carries no end time — in
particular `"[elapsed 12.5s] #marker good# wheel lockup"` yields
`(12.5, "good", "good")` and `"just a note"` yields no annotation. -/
theorem c8_marker_iff_on_trimmed_line (line : String) :
    ((parseAnnotationLine line).isSome = true ↔
        containsSub (trimChars line.toList) markerPat = true) ∧
      parseAnnotationLine "[elapsed 12.5s] #marker good# wheel lockup" =
        some (25 / 2, "good", "good") ∧
      parseAnnotationLine "just a note" = none := by
  refine ⟨?_, ?_, rfl⟩
  · constructor
    · intro h
      by_cases hc : containsSub (trimChars line.toList) markerPat = true
      · exact hc
      · have hcf : containsSub (trimChars line.toList) markerPat = false := by
          cases hx : containsSub (trimChars line.toList) markerPat
          · rfl
          · exact absurd hx hc
        have hnone : parseAnnotationLine line = none := by
          unfold parseAnnotationLine
          rw [hcf]
          simp
        rw [hnone] at h
        simp at h
    · intro hc
      have hne : (trimChars line.toList).isEmpty = false := by
        cases hl : trimChars line.toList with
        | nil =>
          rw [hl] at hc
          exact absurd hc (by decide)
        | cons c t => rfl
      unfold parseAnnotationLine
      rw [hne, hc]
      simp
  · have h1 : parseAnnotationLine "[elapsed 12.5s] #marker good# wheel lockup" =
        some ((1 : ℚ) * (((12 : Nat) : ℚ) + ((5 : Nat) : ℚ) / (10 : ℚ) ^ (1 : Nat)),
          "good", "good") := rfl
    have h2 : ((1 : ℚ) * (((12 : Nat) : ℚ) + ((5 : Nat) : ℚ) / (10 : ℚ) ^ (1 : Nat))) =
        25 / 2 := by norm_num
    rw [h1, h2]

/-! ## C9 — bounded wide-string reads from the shared-memory segment

`read_utf16_string_at` (`src/vendor/acc_shared_memory_rs/src/core/shared_memory.rs`
lines 140-165): compute `max_bytes = size − offset` (saturating),
`max_chars_in_buffer = max_bytes / 2`, fail when that is zero, read
`read_count = min(max_char_count, max_chars_in_buffer)` u16 cells, cut at
the first null cell (or keep all `read_count` cells when none), and decode
UTF-16.  The segment is a byte list; a u16 cell at index `i` is the
little-endian pair at bytes `offset + 2i`, `offset + 2i + 1`; the decoded
string is its list of scalar values (the character count of the Rust
`String`). -/

/-- UTF-16 decoding (`String::from_utf16`): scalar values from u16 units,
combining surrogate pairs, `none` on a lone or inverted surrogate. -/
def utf16Decode : List Nat → Option (List Nat)
  | [] => some []
  | [u] =>
    if u < 55296 ∨ 57344 ≤ u then (utf16Decode []).map (fun cs => u :: cs)
    else none
  | u :: v :: rest2 =>
    if u < 55296 ∨ 57344 ≤ u then (utf16Decode (v :: rest2)).map (fun cs => u :: cs)
    else if u < 56320 then
      if 56320 ≤ v ∧ v < 57344 then
        (utf16Decode rest2).map
          (fun cs => (65536 + (u - 55296) * 1024 + (v - 56320)) :: cs)
      else none
    else none

theorem utf16Decode_length_le :
    ∀ us cs, utf16Decode us = some cs → cs.length ≤ us.length := by
  have H : ∀ n us cs, us.length ≤ n → utf16Decode us = some cs →
      cs.length ≤ us.length := by
    intro n
    induction n with
    | zero =>
      intro us cs hlen h
      cases us with
      | nil =>
        rw [utf16Decode] at h
        injection h with h2
        rw [← h2]
      | cons u rest => simp at hlen
    | succ n ih =>
      intro us cs hlen h
      cases us with
      | nil =>
        rw [utf16Decode] at h
        injection h with h2
        rw [← h2]
      | cons u rest =>
        cases rest with
        | nil =>
          rw [utf16Decode] at h
          by_cases h1 : u < 55296 ∨ 57344 ≤ u
          · rw [if_pos h1, utf16Decode] at h
            simp only [Option.map_some', Option.some.injEq] at h
            rw [← h]
          · rw [if_neg h1] at h
            simp at h
        | cons v rest2 =>
          rw [utf16Decode] at h
          by_cases h1 : u < 55296 ∨ 57344 ≤ u
          · rw [if_pos h1] at h
            cases hd : utf16Decode (v :: rest2) with
            | none => rw [hd] at h; simp at h
            | some cs2 =>
              rw [hd] at h
              simp only [Option.map_some', Option.some.injEq] at h
              rw [← h]
              have hrl : (v :: rest2).length ≤ n := by
                simp only [List.length_cons] at hlen ⊢
                omega
              have := ih (v :: rest2) cs2 hrl hd
              simp only [List.length_cons] at this ⊢
              omega
          · rw [if_neg h1] at h
            by_cases h2 : u < 56320
            · rw [if_pos h2] at h
              by_cases h3 : 56320 ≤ v ∧ v < 57344
              · rw [if_pos h3] at h
                cases hd : utf16Decode rest2 with
                | none => rw [hd] at h; simp at h
                | some cs2 =>
                  rw [hd] at h
                  simp only [Option.map_some', Option.some.injEq] at h
                  rw [← h]
                  have hrl : rest2.length ≤ n := by
                    simp only [List.length_cons] at hlen
                    omega
                  have := ih rest2 cs2 hrl hd
                  simp only [List.length_cons]
                  omega
              · rw [if_neg h3] at h; simp at h
            · rw [if_neg h2] at h; simp at h
  exact fun us cs h => H us.length us cs le_rfl h

/-- The u16 cells starting at `offset`: `slice::from_raw_parts(ptr.add(offset)
as *const u16, n)` on a little-endian byte view. -/
def cellsAt (mem : List Nat) (offset n : Nat) : List Nat :=
  (List.range n).map
    (fun i => mem.getD (offset + 2 * i) 0 + 256 * mem.getD (offset + 2 * i + 1) 0)

/-- `read_utf16_string_at` (`shared_memory.rs` lines 140-165). -/
def readUtf16StringAt (mem : List Nat) (offset maxCharCount : Nat) :
    Option (List Nat) :=
  if (mem.length - offset) / 2 = 0 then none
  else
    utf16Decode
      ((cellsAt mem offset (min maxCharCount ((mem.length - offset) / 2))).take
        ((cellsAt mem offset (min maxCharCount ((mem.length - offset) / 2))).findIdx
          (fun c => c == 0)))

/-- C9 counterexample: with declared capacity N = 2 and no null terminator
in the first two cells (`"AA"` in a 4-byte segment), the decode returns 2
characters — not at most N − 1 = 1 as claimed. -/
theorem c9_counterexample_returns_full_cap :
    readUtf16StringAt [65, 0, 65, 0] 0 2 = some [65, 65] ∧
      ¬ ([65, 65] : List Nat).length ≤ 2 - 1 :=
  ⟨rfl, by decide⟩

/-- C9 (amended): decoding a wide string of declared capacity N returns at
most N characters (the cap itself, reached when no null terminator occurs
within the capped cell count), and never reads past the mapping — the
bytes read stop at `offset + 2 * min N ((size − offset) / 2) ≤ size`. -/
theorem c9_wide_string_bounded (mem : List Nat) (offset maxCharCount : Nat)
    (out : List Nat) (h : readUtf16StringAt mem offset maxCharCount = some out) :
    out.length ≤ maxCharCount ∧
      offset + 2 * min maxCharCount ((mem.length - offset) / 2) ≤ mem.length := by
  unfold readUtf16StringAt at h
  by_cases h0 : (mem.length - offset) / 2 = 0
  · rw [if_pos h0] at h
    simp at h
  · rw [if_neg h0] at h
    constructor
    · have hlen := utf16Decode_length_le _ _ h
      have htake : ((cellsAt mem offset
            (min maxCharCount ((mem.length - offset) / 2))).take
          ((cellsAt mem offset
              (min maxCharCount ((mem.length - offset) / 2))).findIdx
            (fun c => c == 0))).length ≤
          (cellsAt mem offset (min maxCharCount ((mem.length - offset) / 2))).length :=
        (List.length_take ..).trans_le (Nat.min_le_right _ _)
      have hcells : (cellsAt mem offset
          (min maxCharCount ((mem.length - offset) / 2))).length =
          min maxCharCount ((mem.length - offset) / 2) := by
        simp [cellsAt]
      omega
    · omega

/-- Witness for C9 (amended) at the counterexample input. -/
theorem c9_wide_string_bounded_witness :
    ([65, 65] : List Nat).length ≤ 2 ∧
      0 + 2 * min 2 ((List.length [65, 0, 65, 0] - 0) / 2) ≤
        List.length [65, 0, 65, 0] :=
  c9_wide_string_bounded [65, 0, 65, 0] 0 2 [65, 65] rfl

end AcrTelemetry

